import Mathlib

/-!
Verification development for the predator–prey pursuit simulation
(`simulation.py`, class `PredatorPreySimulation`).

The per-frame `update` method is shallowly embedded: positions are pairs of
real numbers, the NumPy Euclidean norm is `norm2`, in-place array mutation is
explicit `List.set`, and the randomness of `np.random.rand` is passed in as an
explicit sampler argument.  The slider widgets are modelled only through the
values they can deliver (`clampSlider`, from the slider ranges configured in
`_setup_sliders`).
-/

namespace FollowSim

/-- A 2-D point or vector, as a pair of real coordinates. -/
abbrev Vec := ℝ × ℝ

/-- Euclidean norm of a 2-D vector: `np.linalg.norm`. -/
noncomputable def norm2 (v : Vec) : ℝ :=
  Real.sqrt (v.1 ^ 2 + v.2 ^ 2)

/-- Minimum of a list of reals: `np.min` (default 0 on the empty array, which
the simulation never produces since the agent count is at least 1). -/
noncomputable def listMin : List ℝ → ℝ
  | [] => 0
  | [x] => x
  | x :: y :: ys => min x (listMin (y :: ys))

/-- Index of the first occurrence of the minimum of a list of reals:
`np.argmin` (first-occurrence tie-breaking). -/
noncomputable def argminIdx : List ℝ → ℕ
  | [] => 0
  | [_] => 0
  | x :: y :: ys => if x ≤ listMin (y :: ys) then 0 else argminIdx (y :: ys) + 1

/-- The mutable state of `PredatorPreySimulation`: the fields set in
`__init__` that the per-frame `update` reads and writes (plot objects and
sliders are external presentation state and appear only through the values
they deliver). -/
structure SimState where
  numAgents : ℕ
  safeDistance : ℝ
  hunterSpeed : ℝ
  preySpeed : ℝ
  repulsionStrength : ℝ
  areaSize : ℝ
  hunters : List Vec
  prey : Vec

/-- Everything one call of `update(frame)` produces: the new simulation state,
whether the "Prey caught!" terminal branch fired (`np.min(distances) <
safe_distance`), and the facing directions handed to `create_triangle` for the
hunter patches and the prey patch. -/
structure StepResult where
  state : SimState
  caught : Bool
  hunterHeads : List Vec
  preyHead : Vec

/-- The external inputs one `update` call reads: the slider value for the
number of agents, the slider value for the safe distance, and — used only when
the population is re-initialized — the fresh random positions that
`np.random.rand(...) * area_size` would produce for the hunters and the prey. -/
structure UpdInput where
  requested : ℕ
  newSafe : ℝ
  fresh : ℕ → Vec
  freshPrey : Vec

/-- The value delivered by the number-of-agents slider, created in
`_setup_sliders` with `valmin = 1`, `valmax = 5`, `valstep = 1`: any requested
integer is clamped into `[1, 5]`. -/
def clampSlider (r : ℕ) : ℕ := min 5 (max 1 r)

/-- Lines 99–106 of `update` plus `_reinitialize_agents` /
`_initialize_positions`: if the slider's agent count differs from the current
one, BOTH the hunter array and the prey are freshly re-sampled
(`_initialize_positions` assigns `self.hunters` and `self.prey`); then the
safe distance is taken from its slider unconditionally. -/
noncomputable def reconfig (s : SimState) (u : UpdInput) : SimState :=
  let newNum := clampSlider u.requested
  let s1 := if newNum ≠ s.numAgents then
      { s with numAgents := newNum,
               hunters := (List.range newNum).map u.fresh,
               prey := u.freshPrey }
    else s
  { s1 with safeDistance := u.newSafe }

/-- Line 109: `distances = np.linalg.norm(self.hunters - self.prey, axis=1)`,
the per-hunter distance vector computed before anything moves. -/
noncomputable def preDistances (s : SimState) : List ℝ :=
  s.hunters.map (fun h => norm2 (h - s.prey))

/-- Line 110: `closest_idx = np.argmin(distances)`. -/
noncomputable def closestIdx (s : SimState) : ℕ :=
  argminIdx (preDistances s)

/-- Lines 111–114: the prey moves `prey_speed` along the unit vector pointing
from the closest hunter towards it, unless that direction vector is zero. -/
noncomputable def preyNew (s : SimState) : Vec :=
  let dvec := s.prey - s.hunters.getD (closestIdx s) 0
  if norm2 dvec ≠ 0 then s.prey + (s.preySpeed / norm2 dvec) • dvec else s.prey

/-- Lines 118–121: hunter `i` steps `hunter_speed` towards the (already moved)
prey, in place, unless the direction vector is zero. -/
noncomputable def seekStep (speed : ℝ) (p : Vec) (hs : List Vec) (i : ℕ) : List Vec :=
  let dir := p - hs.getD i 0
  if norm2 dir ≠ 0 then hs.set i (hs.getD i 0 + (speed / norm2 dir) • dir) else hs

/-- Lines 124–128: one inner-loop iteration of the collision-avoidance rule,
reading the CURRENT (possibly already mutated) array: if `i ≠ j` and the
current separation is positive and below `1.0`, hunter `i` is displaced by
`repulsion_strength` along the unit vector away from hunter `j`, in place. -/
noncomputable def repelStep (strength : ℝ) (i j : ℕ) (hs : List Vec) : List Vec :=
  if i = j then hs
  else
    let diff := hs.getD i 0 - hs.getD j 0
    let d := norm2 diff
    if d < 1 ∧ d ≠ 0 then hs.set i (hs.getD i 0 + (strength / d) • diff) else hs

/-- Lines 123–128: the inner `for j in range(self.num_agents)` loop. -/
noncomputable def repelAll (strength : ℝ) (n i : ℕ) (hs : List Vec) : List Vec :=
  (List.range n).foldl (fun l j => repelStep strength i j l) hs

/-- One iteration of the outer hunter loop (lines 117–128): seek, then the
full repulsion pass for hunter `i`, each applied in place immediately. -/
noncomputable def hunterStep (speed strength : ℝ) (p : Vec) (n : ℕ)
    (hs : List Vec) (i : ℕ) : List Vec :=
  repelAll strength n i (seekStep speed p hs i)

/-- Lines 117–128: the outer `for i in range(self.num_agents)` loop. -/
noncomputable def hunterLoop (speed strength : ℝ) (p : Vec) (n : ℕ)
    (hs : List Vec) : List Vec :=
  (List.range n).foldl (hunterStep speed strength p n) hs

/-- The hunter array after the movement phase of one `update` call. -/
noncomputable def huntersNew (s : SimState) : List Vec :=
  hunterLoop s.hunterSpeed s.repulsionStrength (preyNew s) s.numAgents s.hunters

/-- The normalization applied to every facing direction before it is drawn
(lines 57–61 of `create_triangle`, duplicated at lines 134–137 and 144–147):
a zero vector becomes the canonical `(1, 0)`, anything else is divided by its
norm. -/
noncomputable def unitOr1 (v : Vec) : Vec :=
  if norm2 v = 0 then (1, 0) else (norm2 v)⁻¹ • v

/-- Lines 108–156 of `update`, after the reconfiguration prologue: move the
prey, move the hunters in place, derive the patch headings, and test
`np.min(distances) < self.safe_distance` on the pre-movement distance
vector. -/
noncomputable def stepCore (s : SimState) : StepResult :=
  { state := { s with hunters := huntersNew s, prey := preyNew s },
    caught := decide (listMin (preDistances s) < s.safeDistance),
    hunterHeads := (List.range s.numAgents).map
      (fun i => unitOr1 (preyNew s - (huntersNew s).getD i 0)),
    preyHead := unitOr1 ((huntersNew s).getD (closestIdx s) 0 - preyNew s) }

/-- One full `update(frame)` call: the reconfiguration prologue followed by
the movement/termination body. -/
noncomputable def update (s : SimState) (u : UpdInput) : StepResult :=
  stepCore (reconfig s u)

/-- A whole animation run: a sequence of `update` calls, each with its own
slider readings and random draws. -/
noncomputable def runSeq (s : SimState) : List UpdInput → SimState
  | [] => s
  | u :: us => runSeq (update s u).state us

/-- Modelled from the spec: the snapshot-read / batched-write seek
displacement of §4.2, `speed × unit_vector(target − self)` with the
zero-length guard.  Used only as the comparison point for the claim that the
implementation computes all displacements from a start-of-step snapshot. -/
noncomputable def seekDisp (speed : ℝ) (target self : Vec) : Vec :=
  if norm2 (target - self) ≠ 0 then
    (speed / norm2 (target - self)) • (target - self)
  else 0

/-- Modelled from the spec: the accumulated repulsion displacement of §4.2 for
agent `i`, every pairwise separation read from the SAME array `hs` (the
start-of-step snapshot), contributions summed before being applied. -/
noncomputable def repulsionDisp (strength : ℝ) (n i : ℕ) (hs : List Vec) : Vec :=
  ((List.range n).map (fun j =>
    if i ≠ j ∧ 0 < norm2 (hs.getD i 0 - hs.getD j 0) ∧
        norm2 (hs.getD i 0 - hs.getD j 0) < 1 then
      (strength / norm2 (hs.getD i 0 - hs.getD j 0)) • (hs.getD i 0 - hs.getD j 0)
    else 0)).sum

/-- Modelled from the spec: the hunter movement phase under §4.2/§5
snapshot-read, batched-write semantics — every agent's displacement (seek plus
accumulated repulsion) is computed from the start-of-step positions `hs`, and
all displacements are applied only afterwards. -/
noncomputable def hunterLoopSnapshot (speed strength : ℝ) (p : Vec) (n : ℕ)
    (hs : List Vec) : List Vec :=
  (List.range n).map (fun i =>
    hs.getD i 0 + seekDisp speed p (hs.getD i 0) + repulsionDisp strength n i hs)

/-- The hunter array one step would produce under the spec's snapshot
semantics, with the same moved-prey seek target the code uses. -/
noncomputable def huntersNewSnapshot (s : SimState) : List Vec :=
  hunterLoopSnapshot s.hunterSpeed s.repulsionStrength (preyNew s) s.numAgents s.hunters

/-- Two hunters at distance 1.02 on the x-axis, prey far to the right: after
hunter 0 seeks, its distance to hunter 1 drops below the repulsion radius, so
the in-place update and the snapshot semantics disagree. -/
noncomputable def exSeq : SimState :=
  { numAgents := 2, safeDistance := 1, hunterSpeed := 0.05, preySpeed := 0.03,
    repulsionStrength := 0.1, areaSize := 10,
    hunters := [(0, 0), (1.02, 0)], prey := (100, 0) }

/-- One hunter slightly behind the prey: after both move, the hunter lands
exactly on the new prey position, so the flee-heading direction vector is zero
even though the hunter's start-of-step position is not at the new prey
position. -/
noncomputable def exHead : SimState :=
  { numAgents := 1, safeDistance := 1, hunterSpeed := 0.05, preySpeed := 0.03,
    repulsionStrength := 0.1, areaSize := 10,
    hunters := [(-0.02, 0)], prey := (0, 0) }

/-- One hunter at the arena center, prey just inside the left edge: fleeing
takes the prey's x-coordinate below 0. -/
noncomputable def exEdge : SimState :=
  { numAgents := 1, safeDistance := 1, hunterSpeed := 0.05, preySpeed := 0.03,
    repulsionStrength := 0.1, areaSize := 10,
    hunters := [(5, 5)], prey := (0.01, 5) }

/-- A small generic state used to instantiate hypotheses of the universally
quantified theorems. -/
noncomputable def exPlain : SimState :=
  { numAgents := 1, safeDistance := 1, hunterSpeed := 0.05, preySpeed := 0.03,
    repulsionStrength := 0.1, areaSize := 10,
    hunters := [(5, 5)], prey := (2, 2) }

/-- A state with one hunter half a unit from the prey, inside the default safe
distance. -/
noncomputable def exClose : SimState :=
  { numAgents := 1, safeDistance := 1, hunterSpeed := 0.05, preySpeed := 0.03,
    repulsionStrength := 0.1, areaSize := 10,
    hunters := [(0.5, 0)], prey := (0, 0) }

/-- A state with one hunter three units from the prey. -/
noncomputable def exFar : SimState :=
  { numAgents := 1, safeDistance := 1, hunterSpeed := 0.05, preySpeed := 0.03,
    repulsionStrength := 0.1, areaSize := 10,
    hunters := [(3, 0)], prey := (0, 0) }

/-- Two hunter positions half a unit apart, for instantiating the repulsion
rule. -/
noncomputable def wpair : List Vec := [(0, 0), (0.5, 0)]

theorem norm2_nonneg (v : Vec) : 0 ≤ norm2 v :=
  Real.sqrt_nonneg _

theorem norm2_mk_zero (a : ℝ) : norm2 (a, 0) = |a| := by
  simp [norm2, Real.sqrt_sq_eq_abs]

theorem norm2_zero : norm2 (0, 0) = 0 := by
  simp [norm2]

theorem norm2_eq_zero_iff (v : Vec) : norm2 v = 0 ↔ v = 0 := by
  obtain ⟨a, b⟩ := v
  rw [norm2, Real.sqrt_eq_zero (by positivity)]
  constructor
  · intro h
    have ha : a ^ 2 = 0 ∧ b ^ 2 = 0 := by
      constructor <;> nlinarith [sq_nonneg a, sq_nonneg b]
    have : a = 0 := by nlinarith [ha.1]
    have : b = 0 := by nlinarith [ha.2]
    simp_all [Prod.ext_iff]
  · intro h
    rw [Prod.ext_iff] at h
    simp_all

theorem norm2_pos_of_ne (v : Vec) (h : v ≠ 0) : 0 < norm2 v := by
  rcases lt_or_eq_of_le (norm2_nonneg v) with h1 | h1
  · exact h1
  · exact absurd ((norm2_eq_zero_iff v).1 h1.symm) h

theorem norm2_smul (c : ℝ) (v : Vec) : norm2 (c • v) = |c| * norm2 v := by
  obtain ⟨a, b⟩ := v
  rw [Prod.smul_mk, smul_eq_mul, smul_eq_mul, norm2, norm2]
  have h : (c * a) ^ 2 + (c * b) ^ 2 = c ^ 2 * (a ^ 2 + b ^ 2) := by ring
  rw [h, Real.sqrt_mul (sq_nonneg c), Real.sqrt_sq_eq_abs]

theorem listMin_le (l : List ℝ) : ∀ x ∈ l, listMin l ≤ x := by
  induction l with
  | nil => intro x hx; cases hx
  | cons a t ih =>
    intro x hx
    cases t with
    | nil =>
      rw [List.mem_singleton] at hx
      subst hx
      simp [listMin]
    | cons b u =>
      rw [List.mem_cons] at hx
      rcases hx with h | h
      · subst h; exact min_le_left _ _
      · exact le_trans (min_le_right _ _) (ih x h)

theorem argminIdx_lt_length (l : List ℝ) (h : l ≠ []) : argminIdx l < l.length := by
  induction l with
  | nil => exact absurd rfl h
  | cons a t ih =>
    cases t with
    | nil => simp [argminIdx]
    | cons b u =>
      by_cases hle : a ≤ listMin (b :: u)
      · simp [argminIdx, hle]
      · have h2 := ih (by simp)
        simp only [List.length_cons] at h2
        simp only [argminIdx, hle, if_false, List.length_cons]
        omega

theorem getD_argminIdx (l : List ℝ) (h : l ≠ []) :
    l.getD (argminIdx l) 0 = listMin l := by
  induction l with
  | nil => exact absurd rfl h
  | cons a t ih =>
    cases t with
    | nil => simp [argminIdx, listMin]
    | cons b u =>
      by_cases hle : a ≤ listMin (b :: u)
      · have : listMin (a :: b :: u) = a := by
          rw [listMin]; exact min_eq_left hle
        simp [argminIdx, hle, this]
      · have hmin : listMin (a :: b :: u) = listMin (b :: u) := by
          rw [listMin]; exact min_eq_right (le_of_not_le hle)
        simp only [argminIdx, hle, if_false, hmin]
        simpa using ih (by simp)

theorem getD_lt_of_lt_argminIdx (l : List ℝ) (k : ℕ) (hk : k < argminIdx l) :
    listMin l < l.getD k 0 := by
  induction l generalizing k with
  | nil => simp [argminIdx] at hk
  | cons a t ih =>
    cases t with
    | nil => simp [argminIdx] at hk
    | cons b u =>
      by_cases hle : a ≤ listMin (b :: u)
      · simp [argminIdx, hle] at hk
      · have hmin : listMin (a :: b :: u) = listMin (b :: u) := by
          rw [listMin]; exact min_eq_right (le_of_not_le hle)
        simp only [argminIdx, hle, if_false] at hk
        cases k with
        | zero =>
          rw [hmin]
          simpa using lt_of_not_le hle
        | succ k =>
          rw [hmin]
          simpa using ih k (by omega)

theorem getD_map_of_lt {α β : Type} (f : α → β) (l : List α) (i : ℕ)
    (da : α) (db : β) (h : i < l.length) :
    (l.map f).getD i db = f (l.getD i da) := by
  induction l generalizing i with
  | nil => simp at h
  | cons x t ih =>
    cases i with
    | zero => rfl
    | succ i =>
      simp only [List.map_cons, List.getD_cons_succ]
      exact ih i (by simpa using Nat.lt_of_succ_lt_succ h)

theorem getD_set_ne {α : Type} (l : List α) (i m : ℕ) (v d : α) (h : i ≠ m) :
    (l.set i v).getD m d = l.getD m d := by
  induction l generalizing i m with
  | nil => simp
  | cons x t ih =>
    cases i with
    | zero =>
      cases m with
      | zero => exact absurd rfl h
      | succ m => simp
    | succ i =>
      cases m with
      | zero => simp
      | succ m =>
        simp only [List.set_cons_succ, List.getD_cons_succ]
        exact ih i m (by omega)

theorem foldl_invariant {α β : Type} (P : α → Prop) (f : α → β → α)
    (l : List β) (a : α) (h0 : P a)
    (hstep : ∀ x b, b ∈ l → P x → P (f x b)) : P (l.foldl f a) := by
  induction l generalizing a with
  | nil => exact h0
  | cons b t ih =>
    exact ih (f a b) (hstep a b (by simp) h0)
      (fun x c hc hx => hstep x c (by simp [hc]) hx)

theorem length_seekStep (speed : ℝ) (p : Vec) (hs : List Vec) (i : ℕ) :
    (seekStep speed p hs i).length = hs.length := by
  simp only [seekStep]
  split <;> simp

theorem length_repelStep (strength : ℝ) (i j : ℕ) (hs : List Vec) :
    (repelStep strength i j hs).length = hs.length := by
  simp only [repelStep]
  split
  · rfl
  · split <;> simp

theorem length_repelAll (strength : ℝ) (n i : ℕ) (hs : List Vec) :
    (repelAll strength n i hs).length = hs.length := by
  rw [repelAll]
  exact foldl_invariant (fun l : List Vec => l.length = hs.length) _ _ _ rfl
    (fun l j _ hl => by
      show (repelStep strength i j l).length = hs.length
      rw [length_repelStep]; exact hl)

theorem length_hunterStep (speed strength : ℝ) (p : Vec) (n : ℕ)
    (hs : List Vec) (i : ℕ) :
    (hunterStep speed strength p n hs i).length = hs.length := by
  rw [hunterStep, length_repelAll, length_seekStep]

theorem length_hunterLoop (speed strength : ℝ) (p : Vec) (n : ℕ)
    (hs : List Vec) : (hunterLoop speed strength p n hs).length = hs.length := by
  rw [hunterLoop]
  exact foldl_invariant (fun l : List Vec => l.length = hs.length) _ _ _ rfl
    (fun l i _ hl => by
      show (hunterStep speed strength p n l i).length = hs.length
      rw [length_hunterStep]; exact hl)

theorem length_huntersNew (s : SimState) :
    (huntersNew s).length = s.hunters.length :=
  length_hunterLoop _ _ _ _ _

theorem getD_seekStep_ne (speed : ℝ) (p : Vec) (hs : List Vec) (i m : ℕ)
    (h : i ≠ m) : (seekStep speed p hs i).getD m 0 = hs.getD m 0 := by
  simp only [seekStep]
  split
  · exact getD_set_ne hs i m _ 0 h
  · rfl

theorem getD_repelStep_ne (strength : ℝ) (i j m : ℕ) (hs : List Vec)
    (h : i ≠ m) : (repelStep strength i j hs).getD m 0 = hs.getD m 0 := by
  simp only [repelStep]
  split
  · rfl
  · split
    · exact getD_set_ne hs i m _ 0 h
    · rfl

theorem getD_repelAll_ne (strength : ℝ) (n i m : ℕ) (hs : List Vec)
    (h : i ≠ m) : (repelAll strength n i hs).getD m 0 = hs.getD m 0 := by
  rw [repelAll]
  exact foldl_invariant (fun l : List Vec => l.getD m 0 = hs.getD m 0) _ _ _ rfl
    (fun l j _ hl => by
      show (repelStep strength i j l).getD m 0 = hs.getD m 0
      rw [getD_repelStep_ne strength i j m l h]; exact hl)

theorem getD_hunterStep_ne (speed strength : ℝ) (p : Vec) (n : ℕ)
    (hs : List Vec) (i m : ℕ) (h : i ≠ m) :
    (hunterStep speed strength p n hs i).getD m 0 = hs.getD m 0 := by
  rw [hunterStep, getD_repelAll_ne _ _ _ _ _ h, getD_seekStep_ne _ _ _ _ _ h]

theorem norm2_zero_vec : norm2 (0 : Vec) = 0 :=
  (norm2_eq_zero_iff 0).mpr rfl

theorem norm2_one_zero : norm2 (((1 : ℝ), (0 : ℝ))) = 1 := by
  rw [norm2_mk_zero]
  norm_num

theorem unitOr1_zero : unitOr1 0 = (1, 0) := by
  rw [unitOr1, if_pos norm2_zero_vec]

theorem norm2_unitOr1 (v : Vec) : norm2 (unitOr1 v) = 1 := by
  rw [unitOr1]
  split
  · exact norm2_one_zero
  · rename_i h
    have hpos : 0 < norm2 v := lt_of_le_of_ne (norm2_nonneg v) (Ne.symm h)
    rw [norm2_smul, abs_of_pos (inv_pos.mpr hpos)]
    exact inv_mul_cancel₀ (ne_of_gt hpos)

theorem unitOr1_ne_zero (v : Vec) : unitOr1 v ≠ 0 := by
  intro hcon
  have h1 := norm2_unitOr1 v
  rw [hcon, norm2_zero_vec] at h1
  exact zero_ne_one h1

theorem getD_mem_of_lt {α : Type} (l : List α) (n : ℕ) (d : α)
    (h : n < l.length) : l.getD n d ∈ l := by
  rw [List.getD_eq_getElem l d h]
  exact List.getElem_mem h

theorem preDistances_length (s : SimState) :
    (preDistances s).length = s.hunters.length := by
  rw [preDistances, List.length_map]

theorem closestIdx_lt_length (s : SimState) (h : s.hunters ≠ []) :
    closestIdx s < s.hunters.length := by
  have hne : preDistances s ≠ [] := by
    rw [preDistances]
    simpa using h
  have := argminIdx_lt_length (preDistances s) hne
  rw [preDistances_length] at this
  exact this

theorem getD_preDistances (s : SimState) (k : ℕ) (h : k < s.hunters.length) :
    (preDistances s).getD k 0 = norm2 (s.hunters.getD k 0 - s.prey) := by
  rw [preDistances]
  exact getD_map_of_lt _ _ _ 0 0 h

theorem listMin_preDistances (s : SimState) (h : s.hunters ≠ []) :
    listMin (preDistances s) = norm2 (s.hunters.getD (closestIdx s) 0 - s.prey) := by
  have hne : preDistances s ≠ [] := by
    rw [preDistances]
    simpa using h
  have h1 := getD_argminIdx (preDistances s) hne
  rw [← getD_preDistances s (closestIdx s) (closestIdx_lt_length s h)]
  exact h1.symm

theorem reconfig_numAgents (s : SimState) (u : UpdInput) :
    (reconfig s u).numAgents = clampSlider u.requested := by
  rw [reconfig]
  by_cases h : clampSlider u.requested ≠ s.numAgents
  · simp [h]
  · push_neg at h
    simp [h]

theorem reconfig_length (s : SimState) (u : UpdInput)
    (hinv : s.hunters.length = s.numAgents) :
    (reconfig s u).hunters.length = clampSlider u.requested := by
  rw [reconfig]
  by_cases h : clampSlider u.requested ≠ s.numAgents
  · simp [h]
  · push_neg at h
    simp [h, hinv]

theorem stepCore_numAgents (s : SimState) :
    (stepCore s).state.numAgents = s.numAgents := rfl

theorem stepCore_hunters_length (s : SimState) :
    (stepCore s).state.hunters.length = s.hunters.length :=
  length_huntersNew s

theorem stepCore_prey (s : SimState) : (stepCore s).state.prey = preyNew s := rfl

theorem update_length (s : SimState) (u : UpdInput)
    (hinv : s.hunters.length = s.numAgents) :
    (update s u).state.hunters.length = clampSlider u.requested ∧
    (update s u).state.numAgents = clampSlider u.requested := by
  rw [update]
  constructor
  · rw [stepCore_hunters_length, reconfig_length s u hinv]
  · rw [stepCore_numAgents, reconfig_numAgents]

/-- Claim C2 counterexample: a reconfiguration from 1 agent to 2 agents
replaces the prey position with the freshly sampled one, so the prey's
position immediately after reconfiguration differs from its position
immediately before. -/
theorem c2_counterexample :
    clampSlider 2 ≠ exPlain.numAgents ∧
    (reconfig exPlain ⟨2, 1, fun k => ((k : ℝ), 0), (7, 7)⟩).prey ≠ exPlain.prey := by
  constructor
  · norm_num [clampSlider, exPlain]
  · rw [reconfig]
    norm_num [clampSlider, exPlain, Prod.ext_iff]

/-- Claim C2 as amended: whenever the clamped requested population size
differs from the current one, the WHOLE agent set is discarded and resampled —
the prey position after reconfiguration equals the freshly drawn sample (not
its previous value), and the hunters are the freshly drawn population of the
clamped requested size. -/
theorem c2_amended_prey_resampled (s : SimState) (u : UpdInput)
    (h : clampSlider u.requested ≠ s.numAgents) :
    (reconfig s u).prey = u.freshPrey ∧
    (reconfig s u).hunters = (List.range (clampSlider u.requested)).map u.fresh ∧
    (reconfig s u).numAgents = clampSlider u.requested := by
  rw [reconfig]
  simp [h]

/-- Witness for the amended C2 at a concrete reconfiguration. -/
theorem c2_amended_witness :
    clampSlider 2 ≠ exPlain.numAgents ∧
    (reconfig exPlain ⟨2, 1, fun k => ((k : ℝ), 0), (7, 7)⟩).prey = (7, 7) :=
  ⟨by norm_num [clampSlider, exPlain],
   (c2_amended_prey_resampled exPlain ⟨2, 1, fun k => ((k : ℝ), 0), (7, 7)⟩
      (by norm_num [clampSlider, exPlain])).1⟩

/-- Claim C7: for an ordered pair of hunter indices, the repulsion update adds
`repulsion_strength • unit_vector(pos_i − pos_j)` to hunter `i` exactly when
the separation is strictly between 0 and 1; an agent never repels itself, and
two hunters at the same point exert no repulsion on each other in either
direction (in particular no division by a zero separation is ever used). -/
theorem c7_repulsion_guard (strength : ℝ) (i j : ℕ) (hs : List Vec) :
    repelStep strength i i hs = hs ∧
    (hs.getD i 0 = hs.getD j 0 →
      repelStep strength i j hs = hs ∧ repelStep strength j i hs = hs) ∧
    (1 ≤ norm2 (hs.getD i 0 - hs.getD j 0) → repelStep strength i j hs = hs) ∧
    (i ≠ j → 0 < norm2 (hs.getD i 0 - hs.getD j 0) →
      norm2 (hs.getD i 0 - hs.getD j 0) < 1 →
      repelStep strength i j hs =
        hs.set i (hs.getD i 0 +
          strength • (norm2 (hs.getD i 0 - hs.getD j 0))⁻¹ •
            (hs.getD i 0 - hs.getD j 0))) := by
  refine ⟨by simp [repelStep], ?_, ?_, ?_⟩
  · intro heq
    constructor
    · by_cases hij : i = j
      · simp [repelStep, hij]
      · have hd : norm2 (hs.getD i 0 - hs.getD j 0) = 0 := by
          rw [heq, sub_self, norm2_zero_vec]
        simp only [repelStep, if_neg hij]
        exact if_neg (fun hcon => hcon.2 hd)
    · by_cases hij : j = i
      · simp [repelStep, hij]
      · have hd : norm2 (hs.getD j 0 - hs.getD i 0) = 0 := by
          rw [heq, sub_self, norm2_zero_vec]
        simp only [repelStep, if_neg hij]
        exact if_neg (fun hcon => hcon.2 hd)
  · intro hge
    by_cases hij : i = j
    · simp [repelStep, hij]
    · simp only [repelStep, if_neg hij]
      rw [if_neg]
      intro hcon
      exact absurd hcon.1 (not_lt.mpr hge)
  · intro hij hpos hlt
    simp only [repelStep, if_neg hij]
    rw [if_pos ⟨hlt, ne_of_gt hpos⟩, div_eq_mul_inv, mul_smul]

/-- Witness for C7: two hunters half a unit apart, the repulsion fires with
the stated displacement. -/
theorem c7_witness :
    (0 : ℕ) ≠ 1 ∧
    0 < norm2 (wpair.getD 0 0 - wpair.getD 1 0) ∧
    norm2 (wpair.getD 0 0 - wpair.getD 1 0) < 1 ∧
    repelStep 0.1 0 1 wpair =
      wpair.set 0 (wpair.getD 0 0 +
        (0.1 : ℝ) • (norm2 (wpair.getD 0 0 - wpair.getD 1 0))⁻¹ •
          (wpair.getD 0 0 - wpair.getD 1 0)) := by
  have h0 : norm2 (wpair.getD 0 0 - wpair.getD 1 0) = 0.5 := by
    norm_num [wpair, List.getD, Prod.mk_sub_mk, norm2_mk_zero]
  refine ⟨by decide, by rw [h0]; norm_num, by rw [h0]; norm_num, ?_⟩
  exact (c7_repulsion_guard 0.1 0 1 wpair).2.2.2 (by decide)
    (by rw [h0]; norm_num) (by rw [h0]; norm_num)

/-- Claim C8: every emitted heading (each hunter's and the prey's) has
Euclidean norm exactly 1 and is never the zero vector; a zero-magnitude
direction is replaced by the canonical default `(1, 0)`. -/
theorem c8_heading_normalization (s : SimState) (i : ℕ) :
    norm2 ((stepCore s).hunterHeads.getD i (1, 0)) = 1 ∧
    (stepCore s).hunterHeads.getD i (1, 0) ≠ 0 ∧
    norm2 (stepCore s).preyHead = 1 ∧
    (stepCore s).preyHead ≠ 0 ∧
    unitOr1 0 = (1, 0) := by
  have hform : ∃ w : Vec, (stepCore s).hunterHeads.getD i (1, 0) = unitOr1 w := by
    by_cases h : i < s.numAgents
    · refine ⟨preyNew s - (huntersNew s).getD i 0, ?_⟩
      show ((List.range s.numAgents).map
        (fun k => unitOr1 (preyNew s - (huntersNew s).getD k 0))).getD i (1, 0) = _
      rw [List.getD_eq_getElem _ _ (by simpa using h)]
      simp
    · refine ⟨0, ?_⟩
      rw [unitOr1_zero]
      show ((List.range s.numAgents).map
        (fun k => unitOr1 (preyNew s - (huntersNew s).getD k 0))).getD i (1, 0) = _
      rw [List.getD_eq_default]
      simpa using not_lt.mp h
  obtain ⟨w, hw⟩ := hform
  refine ⟨by rw [hw]; exact norm2_unitOr1 w,
          by rw [hw]; exact unitOr1_ne_zero w,
          norm2_unitOr1 _, unitOr1_ne_zero _, unitOr1_zero⟩

/-- Claim C10: when the clamped slider request equals the current population
size, one `update` call is completely independent of the random sampler — the
whole step (positions, headings, terminal flag) is a deterministic function of
the prior state and the slider readings. -/
theorem c10_no_reconfig_ignores_sampler (s : SimState) (r : ℕ) (ns : ℝ)
    (f1 f2 : ℕ → Vec) (p1 p2 : Vec) (h : clampSlider r = s.numAgents) :
    update s ⟨r, ns, f1, p1⟩ = update s ⟨r, ns, f2, p2⟩ := by
  have hrc : ∀ (f : ℕ → Vec) (p : Vec),
      reconfig s ⟨r, ns, f, p⟩ = { s with safeDistance := ns } := by
    intro f p
    rw [reconfig]
    simp [h]
  rw [update, update, hrc f1 p1, hrc f2 p2]

/-- Witness for C10 at a concrete state and two different samplers. -/
theorem c10_witness :
    clampSlider 1 = exPlain.numAgents ∧
    update exPlain ⟨1, 2, fun k => ((k : ℝ), 0), (9, 9)⟩ =
      update exPlain ⟨1, 2, fun _ => (3, 3), (0, 0)⟩ :=
  ⟨by norm_num [clampSlider, exPlain],
   c10_no_reconfig_ignores_sampler exPlain 1 2 _ _ _ _
     (by norm_num [clampSlider, exPlain])⟩

/-- Claim C1 as amended: the hunter movement phase is sequential and
in place, not snapshot/batched — each `hunterStep` mutates only the hunter
being processed, so while the first `k` hunters have been processed, every
hunter of index at least `k` still holds its start-of-step position and every
processed hunter already holds its final position, which later hunters'
repulsion computations then read. -/
theorem c1_amended_sequential_inplace (speed strength : ℝ) (p : Vec) (n : ℕ)
    (hs : List Vec) (i k m : ℕ) :
    hunterLoop speed strength p n hs =
      (List.range n).foldl (hunterStep speed strength p n) hs ∧
    (i ≠ m → (hunterStep speed strength p n hs i).getD m 0 = hs.getD m 0) ∧
    (k ≤ m →
      ((List.range k).foldl (hunterStep speed strength p n) hs).getD m 0 =
        hs.getD m 0) := by
  refine ⟨rfl, getD_hunterStep_ne speed strength p n hs i m, ?_⟩
  intro hkm
  exact foldl_invariant (fun l : List Vec => l.getD m 0 = hs.getD m 0) _ _ _ rfl
    (fun l j hj hl => by
      show (hunterStep speed strength p n l j).getD m 0 = hs.getD m 0
      have hjk : j < k := List.mem_range.mp hj
      rw [getD_hunterStep_ne speed strength p n l j m (by omega)]
      exact hl)

/-- Witness for the amended C1: after processing hunter 0 of a two-hunter
population, hunter 1 still holds its start-of-step position. -/
theorem c1_amended_witness :
    (0 : ℕ) ≠ 1 ∧ (1 : ℕ) ≤ 1 ∧
    (hunterStep 0.05 0.1 (0, 0) 2 [((1 : ℝ), (0 : ℝ)), (2, 0)] 0).getD 1 0 =
      [((1 : ℝ), (0 : ℝ)), (2, 0)].getD 1 0 ∧
    ((List.range 1).foldl (hunterStep 0.05 0.1 (0, 0) 2)
        [((1 : ℝ), (0 : ℝ)), (2, 0)]).getD 1 0 =
      [((1 : ℝ), (0 : ℝ)), (2, 0)].getD 1 0 :=
  ⟨by decide, le_refl 1,
   (c1_amended_sequential_inplace 0.05 0.1 (0, 0) 2
     [((1 : ℝ), (0 : ℝ)), (2, 0)] 0 1 1).2.1 (by decide),
   (c1_amended_sequential_inplace 0.05 0.1 (0, 0) 2
     [((1 : ℝ), (0 : ℝ)), (2, 0)] 0 1 1).2.2 (le_refl 1)⟩

/-- Claim C4 as amended: the prey's emitted heading is the normalized vector
from the NEW prey position to the closest hunter's position AFTER this step's
hunter movement (the index still being the pre-movement argmin), with the
canonical `(1, 0)` replacing a zero direction. -/
theorem c4_amended_heading_from_new_position (s : SimState) :
    (stepCore s).preyHead =
      unitOr1 ((stepCore s).state.hunters.getD (closestIdx s) 0 -
        (stepCore s).state.prey) ∧
    unitOr1 0 = (1, 0) :=
  ⟨rfl, unitOr1_zero⟩

/-- Claim C6: after any run of `update` calls, the hunter collection's length
equals the last clamped requested population size — never a stale value. -/
theorem c6_population_size_invariant (s : SimState) (us : List UpdInput)
    (u : UpdInput) (hinv : s.hunters.length = s.numAgents)
    (hlast : us.getLast? = some u) :
    (runSeq s us).hunters.length = clampSlider u.requested ∧
    (runSeq s us).numAgents = clampSlider u.requested := by
  have main : ∀ (vs : List UpdInput) (t : SimState),
      t.hunters.length = t.numAgents → vs.getLast? = some u →
      (runSeq t vs).hunters.length = clampSlider u.requested ∧
      (runSeq t vs).numAgents = clampSlider u.requested := by
    intro vs
    induction vs with
    | nil =>
      intro t _ hl
      simp at hl
    | cons v rest ih =>
      intro t htinv hl
      cases rest with
      | nil =>
        obtain rfl : v = u := by simpa using hl
        rw [runSeq, runSeq]
        exact update_length t v htinv
      | cons w ws =>
        rw [runSeq]
        have hl2 : (w :: ws).getLast? = some u := by
          rwa [List.getLast?_cons_cons] at hl
        have hnext := update_length t v htinv
        exact ih (update t v).state (hnext.1.trans hnext.2.symm) hl2
  exact main us s hinv hlast

/-- Witness for C6: one reconfiguring step from a single-hunter state. -/
theorem c6_witness :
    exPlain.hunters.length = exPlain.numAgents ∧
    (runSeq exPlain [⟨3, 1, fun k => ((k : ℝ), k), (2, 2)⟩]).hunters.length =
      clampSlider 3 :=
  ⟨by simp [exPlain],
   (c6_population_size_invariant exPlain [⟨3, 1, fun k => ((k : ℝ), k), (2, 2)⟩]
      ⟨3, 1, fun k => ((k : ℝ), k), (2, 2)⟩ (by simp [exPlain]) (by simp)).1⟩

/-- Claim C3: the terminal "caught" signal fires exactly when the minimum
pre-movement hunter-to-prey distance — the distance of the same hunter the
flee rule selected, taken from the same pre-movement distance vector — is
strictly below the current safety threshold; at exact equality no signal
fires. -/
theorem c3_caught_iff_strictly_below (s : SimState) (h : s.hunters ≠ []) :
    ((stepCore s).caught = true ↔
      norm2 (s.hunters.getD (closestIdx s) 0 - s.prey) < s.safeDistance) ∧
    (norm2 (s.hunters.getD (closestIdx s) 0 - s.prey) = s.safeDistance →
      (stepCore s).caught = false) := by
  have hm := listMin_preDistances s h
  constructor
  · show decide (listMin (preDistances s) < s.safeDistance) = true ↔ _
    rw [decide_eq_true_eq, hm]
  · intro he
    show decide (listMin (preDistances s) < s.safeDistance) = false
    rw [hm, he]
    simp

/-- Witness for C3: one hunter half a unit away with safety distance 1 — the
step reports the prey caught. -/
theorem c3_witness :
    exClose.hunters ≠ [] ∧ (stepCore exClose).caught = true := by
  refine ⟨by simp [exClose], ?_⟩
  refine ((c3_caught_iff_strictly_below exClose (by simp [exClose])).1).mpr ?_
  have hidx : closestIdx exClose = 0 := by
    norm_num [closestIdx, preDistances, exClose, Prod.mk_sub_mk, norm2_mk_zero,
      argminIdx]
  rw [hidx]
  norm_num [exClose, List.getD, Prod.mk_sub_mk, norm2_mk_zero, abs_of_pos]

/-- Claim C5: the prey flees from the hunter of minimum pre-movement distance
(first occurrence of the minimum, i.e. earlier hunters are strictly farther),
moving exactly `prey_speed` along the unit vector away from it, and does not
move at all when it coincides with that hunter. -/
theorem c5_flee_from_first_closest (s : SimState) (h : s.hunters ≠ [])
    (hsp : 0 ≤ s.preySpeed) :
    closestIdx s < s.hunters.length ∧
    (∀ k, k < s.hunters.length →
      norm2 (s.hunters.getD (closestIdx s) 0 - s.prey) ≤
        norm2 (s.hunters.getD k 0 - s.prey)) ∧
    (∀ k, k < closestIdx s →
      norm2 (s.hunters.getD (closestIdx s) 0 - s.prey) <
        norm2 (s.hunters.getD k 0 - s.prey)) ∧
    (s.prey = s.hunters.getD (closestIdx s) 0 →
      (stepCore s).state.prey = s.prey) ∧
    (s.prey ≠ s.hunters.getD (closestIdx s) 0 →
      (stepCore s).state.prey = s.prey +
        s.preySpeed • (norm2 (s.prey - s.hunters.getD (closestIdx s) 0))⁻¹ •
          (s.prey - s.hunters.getD (closestIdx s) 0) ∧
      norm2 ((stepCore s).state.prey - s.prey) = s.preySpeed) := by
  refine ⟨closestIdx_lt_length s h, ?_, ?_, ?_, ?_⟩
  · intro k hk
    rw [← listMin_preDistances s h, ← getD_preDistances s k hk]
    exact listMin_le (preDistances s) _
      (getD_mem_of_lt _ k 0 (by rw [preDistances_length]; exact hk))
  · intro k hk
    have hk2 : k < s.hunters.length := lt_trans hk (closestIdx_lt_length s h)
    rw [← listMin_preDistances s h, ← getD_preDistances s k hk2]
    exact getD_lt_of_lt_argminIdx (preDistances s) k hk
  · intro heq
    have hz : norm2 (s.prey - s.hunters.getD (closestIdx s) 0) = 0 := by
      rw [← heq, sub_self, norm2_zero_vec]
    rw [stepCore_prey]
    simp only [preyNew]
    exact if_neg (fun hcon => hcon hz)
  · intro hne
    have hvne : s.prey - s.hunters.getD (closestIdx s) 0 ≠ 0 := sub_ne_zero.mpr hne
    have hpos : 0 < norm2 (s.prey - s.hunters.getD (closestIdx s) 0) :=
      norm2_pos_of_ne _ hvne
    have hstep : (stepCore s).state.prey = s.prey +
        (s.preySpeed / norm2 (s.prey - s.hunters.getD (closestIdx s) 0)) •
          (s.prey - s.hunters.getD (closestIdx s) 0) := by
      rw [stepCore_prey]
      simp only [preyNew]
      rw [if_pos (ne_of_gt hpos)]
    constructor
    · rw [hstep, div_eq_mul_inv, mul_smul]
    · rw [hstep, add_sub_cancel_left, norm2_smul, abs_of_nonneg
        (div_nonneg hsp (le_of_lt hpos)), div_mul_cancel₀ _ (ne_of_gt hpos)]

/-- Witness for C5: one hunter three units from the prey — the prey moves
exactly its speed. -/
theorem c5_witness :
    exFar.hunters ≠ [] ∧ (0 : ℝ) ≤ exFar.preySpeed ∧
    norm2 ((stepCore exFar).state.prey - exFar.prey) = exFar.preySpeed := by
  have hidx : closestIdx exFar = 0 := by
    norm_num [closestIdx, preDistances, exFar, Prod.mk_sub_mk, norm2_mk_zero,
      argminIdx]
  refine ⟨by simp [exFar], by norm_num [exFar], ?_⟩
  refine ((c5_flee_from_first_closest exFar (by simp [exFar])
    (by norm_num [exFar])).2.2.2.2 ?_).2
  rw [hidx]
  norm_num [exFar, List.getD, Prod.ext_iff]

/-- Claim C1 counterexample: at `exSeq` the in-place sequential update and
the spec's snapshot/batched-write semantics produce different hunter arrays —
hunter 0's repulsion test reads its own already-applied seek displacement
(separation 0.97 after seeking, 1.02 at the start of the step), so the
repulsion fires in the code but not under the snapshot reading. -/
theorem c1_counterexample : huntersNew exSeq ≠ huntersNewSnapshot exSeq := by
  have h1 : huntersNew exSeq = [(-0.05, 0), (1.07, 0)] := by
    norm_num [huntersNew, hunterLoop, hunterStep, seekStep, repelAll, repelStep,
      preyNew, closestIdx, preDistances, exSeq, Prod.mk_sub_mk, norm2_mk_zero,
      argminIdx, listMin, List.range_succ, List.getD, List.set,
      Prod.smul_mk, smul_eq_mul, Prod.mk_add_mk, Prod.ext_iff,
      abs_of_pos, abs_of_neg]
  have h2 : huntersNewSnapshot exSeq = [(0.05, 0), (1.07, 0)] := by
    norm_num [huntersNewSnapshot, hunterLoopSnapshot, seekDisp, repulsionDisp,
      preyNew, closestIdx, preDistances, exSeq, Prod.mk_sub_mk, norm2_mk_zero,
      argminIdx, listMin, List.range_succ, List.getD, List.sum_cons,
      List.sum_nil, Prod.smul_mk, smul_eq_mul, Prod.mk_add_mk, Prod.ext_iff,
      Prod.fst_zero, Prod.snd_zero, abs_of_pos, abs_of_neg]
  rw [h1, h2]
  intro hcon
  rw [List.cons.injEq, Prod.mk.injEq] at hcon
  norm_num at hcon

/-- Claim C4 counterexample: at `exHead` the hunter ends the step exactly on
the new prey position, so the code's flee-heading direction (taken from the
hunter's post-movement position) is zero and the emitted heading is the
default `(1, 0)`; the heading computed from the hunter's start-of-step
position, as the claim states it, is `(-1, 0)`. -/
theorem c4_counterexample :
    (stepCore exHead).preyHead = (1, 0) ∧
    unitOr1 (exHead.hunters.getD (closestIdx exHead) 0 -
      (stepCore exHead).state.prey) = (-1, 0) ∧
    ((1, 0) : Vec) ≠ (-1, 0) := by
  have hidx : closestIdx exHead = 0 := by
    norm_num [closestIdx, preDistances, exHead, Prod.mk_sub_mk, norm2_mk_zero,
      argminIdx]
  have hprey : preyNew exHead = (0.03, 0) := by
    norm_num [preyNew, closestIdx, preDistances, exHead, Prod.mk_sub_mk,
      norm2_mk_zero, argminIdx, List.getD, Prod.smul_mk, smul_eq_mul,
      Prod.mk_add_mk, Prod.ext_iff, abs_of_pos]
  have hhunters : huntersNew exHead = [(0.03, 0)] := by
    norm_num [huntersNew, hunterLoop, hunterStep, seekStep, repelAll, repelStep,
      preyNew, closestIdx, preDistances, exHead, Prod.mk_sub_mk, norm2_mk_zero,
      argminIdx, List.range_succ, List.getD, List.set, Prod.smul_mk,
      smul_eq_mul, Prod.mk_add_mk, Prod.ext_iff, abs_of_pos, abs_of_neg]
  refine ⟨?_, ?_, by norm_num [Prod.ext_iff]⟩
  · show unitOr1 ((huntersNew exHead).getD (closestIdx exHead) 0 -
      preyNew exHead) = (1, 0)
    rw [hidx, hhunters, hprey]
    norm_num [List.getD, Prod.mk_sub_mk, unitOr1, norm2_mk_zero, norm2_zero_vec]
  · rw [hidx, stepCore_prey, hprey]
    norm_num [exHead, List.getD, Prod.mk_sub_mk, unitOr1, norm2_mk_zero,
      abs_of_neg, Prod.smul_mk, smul_eq_mul, Prod.ext_iff]

/-- Claim C9: the pursuit step applies no wrapping or clamping — from the
in-arena state `exEdge` (all coordinates within `[0, area_size]`), one step
moves the prey's x-coordinate below 0, outside the arena. -/
theorem c9_step_exits_arena :
    (0 ≤ exEdge.prey.1 ∧ exEdge.prey.1 ≤ exEdge.areaSize ∧
     0 ≤ exEdge.prey.2 ∧ exEdge.prey.2 ≤ exEdge.areaSize ∧
     0 ≤ (exEdge.hunters.getD 0 0).1 ∧
     (exEdge.hunters.getD 0 0).1 ≤ exEdge.areaSize ∧
     0 ≤ (exEdge.hunters.getD 0 0).2 ∧
     (exEdge.hunters.getD 0 0).2 ≤ exEdge.areaSize) ∧
    (stepCore exEdge).state.prey.1 < 0 := by
  constructor
  · norm_num [exEdge, List.getD]
  · rw [stepCore_prey]
    norm_num [preyNew, closestIdx, preDistances, exEdge, Prod.mk_sub_mk,
      norm2_mk_zero, argminIdx, List.getD, Prod.smul_mk, smul_eq_mul,
      Prod.mk_add_mk, abs_of_neg, abs_of_pos]

end FollowSim
